import Mathlib

/-!
Verification of the AgriCommerce backend route handlers
(`src/FEandBEConsolidated/backend/src/index.ts`, `backend/src/lib/validators.ts`)
and of the rule-based traffic inspection engine specified in `spec.md` §2-§8
(the engine itself lives in external ModSecurity and is not part of the
repository's sources, so it is modelled from the spec).

Conventions: machine integers are `Int`/`Nat`; the database is a pure value
(lists of records) threaded explicitly; `bcrypt` hashing/comparison and cuid
generation are parameters, since the handlers treat them as black boxes.
String lengths are counted in characters.
-/

namespace StrOps

/-- Containment of one character list in another, by scanning positions. -/
def listContains (pat : List Char) : List Char → Bool
  | [] => pat.isEmpty
  | c :: cs => pat.isPrefixOf (c :: cs) || listContains pat cs

/-- JS `String.prototype.includes`: does `s` contain `pat` as a substring. -/
def strContains (s pat : String) : Bool := listContains pat.data s.data

/-- Splitting a character list on a separator character; the result always
has at least one (possibly empty) group. -/
def splitOnChar (sep : Char) : List Char → List (List Char)
  | [] => [[]]
  | c :: cs =>
    match splitOnChar sep cs with
    | [] => [[c]]
    | h :: t => if c = sep then [] :: h :: t else (c :: h) :: t

/-- Whitespace trimming at both ends of a character list
(JS `String.prototype.trim`). -/
def trimChars (l : List Char) : List Char :=
  ((l.dropWhile Char.isWhitespace).reverse.dropWhile Char.isWhitespace).reverse

/-- JS `String.prototype.trim`. -/
def trimStr (s : String) : String := String.mk (trimChars s.data)

/-- JS `String.prototype.toLowerCase` on the ASCII range. -/
def toLowerStr (s : String) : String := String.mk (s.data.map Char.toLower)

/-- JS `String.prototype.toUpperCase` on the ASCII range. -/
def toUpperStr (s : String) : String := String.mk (s.data.map Char.toUpper)

/-- Value of a decimal digit list, most significant first. -/
def digitsToNat (l : List Char) : Nat :=
  l.foldl (fun acc c => 10 * acc + (c.toNat - 48)) 0

/-- Parsing of a non-empty all-digit character list as a natural number. -/
def parseNatList (l : List Char) : Option Nat :=
  if l ≠ [] ∧ l.all Char.isDigit then some (digitsToNat l) else none

end StrOps

namespace Agri

/-- One row of the Prisma `users` table (schema reported by `/api/schema`). -/
structure UserRec where
  id : String
  email : String
  passwordHash : String
  firstName : String
  lastName : String
  phone : Option String
deriving DecidableEq

/-- One row of the Prisma `products` table, restricted to the fields the
checkout handler selects (`id`, `name`, `priceCents`). -/
structure Product where
  id : String
  name : String
  priceCents : Int
deriving DecidableEq

/-- The error body shape `{ error: { code, message } }` used by every handler. -/
structure ErrorBody where
  code : String
  message : String
deriving DecidableEq

/-- An HTTP response: status code plus a typed body. -/
structure HttpResponse (β : Type) where
  status : Nat
  body : β
deriving DecidableEq

/-- JS `x || null` on an optional string: empty string collapses to null,
as in `phone: phone || null` in the sign-up and admin-update handlers. -/
def jsOrNull (o : Option String) : Option String :=
  match o with
  | some p => if p = "" then none else some p
  | none => none

/-- Character class `[A-Za-z0-9_'+\-.]` of the local part of zod's email
regular expression (`lib/validators.ts`, `z.string().email()`). -/
def isEmailLocalChar (c : Char) : Bool :=
  c.isAlphanum || c == '_' || c == Char.ofNat 39 || c == '+' || c == '-' || c == '.'

/-- Character class `[A-Za-z0-9_+-]` required of the last local-part
character by zod's email regular expression. -/
def isEmailLocalLastChar (c : Char) : Bool :=
  c.isAlphanum || c == '_' || c == '+' || c == '-'

/-- One non-final domain label `[A-Za-z0-9][A-Za-z0-9-]*` of zod's email
regular expression. -/
def isDomainLabel (lab : List Char) : Bool :=
  match lab with
  | [] => false
  | c :: rest => c.isAlphanum && rest.all (fun d => d.isAlphanum || d == '-')

/-- Embedding of zod v3's `.email()` check, the anchored regular expression
`(?!\.)(?!.*\.\.)([A-Za-z0-9_'+\-.]*)[A-Za-z0-9_+-]@([A-Za-z0-9][A-Za-z0-9-]*\.)+[A-Za-z]{2,}`:
no leading dot, no doubled dot anywhere, exactly one at-sign, a non-empty
local part over the allowed alphabet whose last character is alphanumeric or
one of underscore/plus/minus, and a dotted domain whose final label is at
least two letters. -/
def validEmail (s : String) : Bool :=
  match StrOps.splitOnChar '@' s.data with
  | [lp, dp] =>
    (s.data.head? != some '.') &&
    (!(StrOps.listContains ['.', '.'] s.data)) &&
    (!lp.isEmpty) &&
    lp.all isEmailLocalChar &&
    (match lp.getLast? with
     | some c => isEmailLocalLastChar c
     | none => false) &&
    (let labels := StrOps.splitOnChar '.' dp
     decide (2 ≤ labels.length) &&
     (labels.dropLast.all isDomainLabel) &&
     (match labels.getLast? with
      | some lastLab => decide (2 ≤ lastLab.length) && lastLab.all Char.isAlpha
      | none => false))
  | _ => false

/-- Request body of `POST /api/auth/sign-up` (string fields, phone optional). -/
structure SignUpBody where
  email : String
  password : String
  firstName : String
  lastName : String
  phone : Option String
deriving DecidableEq

/-- Embedding of `signUpSchema.safeParse` (`lib/validators.ts`): the email must satisfy
`z.string().email()`, the password `min(6)`, and both names `min(1)`;
the optional phone is unconstrained.  zod checks `min` before the `trim`
transform, so lengths are taken on the raw strings. -/
def signUpValid (b : SignUpBody) : Bool :=
  validEmail b.email &&
  decide (6 ≤ b.password.length) &&
  decide (1 ≤ b.firstName.length) &&
  decide (1 ≤ b.lastName.length)

/-- Typed response body of `POST /api/auth/sign-up`. -/
inductive SignUpRespBody where
  | err (e : ErrorBody)
  | ok (id email firstName lastName : String) (message : String)
deriving DecidableEq

/-- Handler of `POST /api/auth/sign-up` (`index.ts` lines 223-274): validate
with `signUpSchema` (400 on failure), reject an existing email with 409,
otherwise hash the password, create the user (email lowercased and trimmed,
names trimmed, empty phone collapsed to null) and answer 201. -/
def signUp (db : List UserRec) (bcryptHash : String → String) (newId : String)
    (b : SignUpBody) : HttpResponse SignUpRespBody × List UserRec :=
  if signUpValid b = false then
    (⟨400, .err ⟨"VALIDATION_ERROR", "Invalid input data"⟩⟩, db)
  else
    let email := StrOps.trimStr (StrOps.toLowerStr b.email)
    match db.find? (fun u => u.email == email) with
    | some _ =>
      (⟨409, .err ⟨"USER_EXISTS", "An account with this email already exists"⟩⟩, db)
    | none =>
      let u : UserRec :=
        ⟨newId, email, bcryptHash b.password, StrOps.trimStr b.firstName,
          StrOps.trimStr b.lastName, jsOrNull (b.phone.map StrOps.trimStr)⟩
      (⟨201, .ok u.id u.email u.firstName u.lastName "Account created successfully"⟩,
        db ++ [u])

/-- Request body of `POST /api/auth/sign-in`. -/
structure SignInReq where
  email : String
  password : String
deriving DecidableEq

/-- Typed response body of `POST /api/auth/sign-in`. -/
inductive SignInRespBody where
  | err (e : ErrorBody)
  | ok (id email firstName lastName : String) (message : String)
deriving DecidableEq

/-- The shared `invalidError` object of the sign-in handler, served with
status 401 on both failure paths. -/
def invalidCredentialsResp : HttpResponse SignInRespBody :=
  ⟨401, .err ⟨"INVALID_CREDENTIALS", "Invalid email or password"⟩⟩

/-- Handler of `POST /api/auth/sign-in` (`index.ts` lines 137-179): look the
user up by email; answer 401 with the shared `invalidError` body when no
user exists or when `bcrypt.compare` fails, 200 otherwise.  No schema
validation runs (`signInSchema` is imported but never applied). -/
def signIn (db : List UserRec) (bcryptCompare : String → String → Bool)
    (r : SignInReq) : HttpResponse SignInRespBody :=
  match db.find? (fun u => u.email == r.email) with
  | none => invalidCredentialsResp
  | some u =>
    if bcryptCompare r.password u.passwordHash then
      ⟨200, .ok u.id u.email u.firstName u.lastName "Signed in successfully"⟩
    else invalidCredentialsResp

/-- One element of the `items` array sent to `POST /api/cart/checkout`;
the handler never checks the sign of `quantity`. -/
structure CartItem where
  productId : String
  quantity : Int
deriving DecidableEq

/-- One created `purchase_items` row. -/
structure PurchaseItem where
  productId : String
  quantity : Int
  priceCentsAtPurchase : Int
deriving DecidableEq

/-- One created `purchases` row together with its items. -/
structure Purchase where
  userId : String
  totalCents : Int
  items : List PurchaseItem
deriving DecidableEq

/-- The checkout loop over `items` (`index.ts` lines 465-483): look every
product up by id, answering the id of the first missing product as an
error; otherwise accumulate `priceCents * quantity` into the total and
record one validated item per cart item with `priceCentsAtPurchase` set to
the product's current price. -/
def validateItems (products : List Product) :
    List CartItem → Except String (List PurchaseItem × Int)
  | [] => .ok ([], 0)
  | it :: rest =>
    match products.find? (fun p => p.id == it.productId) with
    | none => .error it.productId
    | some p =>
      match validateItems products rest with
      | .error e => .error e
      | .ok (vs, total) =>
        .ok (⟨p.id, it.quantity, p.priceCents⟩ :: vs, p.priceCents * it.quantity + total)

/-- Typed response body of `POST /api/cart/checkout`. -/
inductive CheckoutRespBody where
  | err (e : ErrorBody)
  | ok (purchase : Option Purchase) (authenticated : Bool) (message : String)
deriving DecidableEq

/-- Handler of `POST /api/cart/checkout` (`index.ts` lines 451-525): 400 on a
missing or empty `items` array, 404 on the first unknown product, otherwise
201; a purchase row is created only when `req.user` is set, and the
response's `purchase` field is that row or null. -/
def checkout (products : List Product) (purchases : List Purchase)
    (user : Option String) (items : List CartItem) :
    HttpResponse CheckoutRespBody × List Purchase :=
  if items.isEmpty then
    (⟨400, .err ⟨"INVALID_INPUT", "Cart items are required"⟩⟩, purchases)
  else
    match validateItems products items with
    | .error pid =>
      (⟨404, .err ⟨"PRODUCT_NOT_FOUND", "Product " ++ pid ++ " not found"⟩⟩, purchases)
    | .ok (vs, total) =>
      match user with
      | some uid =>
        let p : Purchase := ⟨uid, total, vs⟩
        (⟨201, .ok (some p) true "Order placed successfully!"⟩, purchases ++ [p])
      | none =>
        (⟨201, .ok none false "Order placed successfully!"⟩, purchases)

/-- Current price of a product id, 0 when absent (only used under the
hypothesis that the product exists). -/
def priceOf (products : List Product) (pid : String) : Int :=
  match products.find? (fun p => p.id == pid) with
  | some p => p.priceCents
  | none => 0

/-- The purchase item the checkout loop records for one cart item. -/
def expectedItem (products : List Product) (it : CartItem) : PurchaseItem :=
  ⟨it.productId, it.quantity, priceOf products it.productId⟩

/-- Sum over the cart of current price times requested quantity. -/
def itemsTotal (products : List Product) (items : List CartItem) : Int :=
  (items.map (fun it => priceOf products it.productId * it.quantity)).sum

/-- The authenticated requester attached by `authMiddleware` (`req.user`). -/
structure AuthUser where
  id : String
  email : String
deriving DecidableEq

/-- One database call issued by an admin handler. -/
inductive DbOp where
  | readUsers
  | deleteUser (id : String)
  | updateUser (id : String)
deriving DecidableEq

/-- The admin guard shared by the three `/api/admin/users` handlers:
`!req.user || req.user.email !== 'admin@agricommerce.com'` rejects. -/
def isAdminReq (user : Option AuthUser) : Bool :=
  match user with
  | none => false
  | some u => u.email == "admin@agricommerce.com"

/-- Typed response body of the admin endpoints. -/
inductive AdminRespBody where
  | err (e : ErrorBody)
  | users (us : List UserRec)
  | user (u : UserRec)
  | msg (m : String)
deriving DecidableEq

/-- The 403 response of the admin guard. -/
def forbiddenResp : HttpResponse AdminRespBody :=
  ⟨403, .err ⟨"FORBIDDEN", "Admin access required"⟩⟩

/-- The 500 response of every catch block. -/
def internalErrorResp : HttpResponse AdminRespBody :=
  ⟨500, .err ⟨"INTERNAL_ERROR", "An unexpected error occurred"⟩⟩

/-- Handler of `GET /api/admin/users` (`index.ts` lines 811-830): guard, then
one `findMany` read.  Result: response, database after, list of issued
database calls. -/
def adminGetUsers (user : Option AuthUser) (db : List UserRec) :
    HttpResponse AdminRespBody × List UserRec × List DbOp :=
  if isAdminReq user = false then (forbiddenResp, db, [])
  else (⟨200, .users db⟩, db, [.readUsers])

/-- Handler of `DELETE /api/admin/users/:id` (`index.ts` lines 848-872):
guard, 400 on self-deletion before any database call, then `delete` —
Prisma throws on a missing id, which the catch block turns into a 500. -/
def adminDeleteUser (user : Option AuthUser) (db : List UserRec) (id : String) :
    HttpResponse AdminRespBody × List UserRec × List DbOp :=
  match user with
  | none => (forbiddenResp, db, [])
  | some u =>
    if (u.email == "admin@agricommerce.com") = false then (forbiddenResp, db, [])
    else if id == u.id then
      (⟨400, .err ⟨"INVALID_OPERATION", "Cannot delete your own account"⟩⟩, db, [])
    else if (db.find? (fun v => v.id == id)).isSome then
      (⟨200, .msg "User deleted successfully"⟩, db.filter (fun v => v.id != id),
        [.deleteUser id])
    else (internalErrorResp, db, [.deleteUser id])

/-- Handler of `PUT /api/admin/users/:id` (`index.ts` lines 888-913): guard,
then `update` of the name and phone fields — Prisma throws on a missing id,
which the catch block turns into a 500. -/
def adminUpdateUser (user : Option AuthUser) (db : List UserRec) (id : String)
    (firstName lastName : String) (phone : Option String) :
    HttpResponse AdminRespBody × List UserRec × List DbOp :=
  match user with
  | none => (forbiddenResp, db, [])
  | some u =>
    if (u.email == "admin@agricommerce.com") = false then (forbiddenResp, db, [])
    else
      match db.find? (fun v => v.id == id) with
      | some v =>
        let v' : UserRec :=
          { v with firstName := firstName, lastName := lastName, phone := jsOrNull phone }
        (⟨200, .user v'⟩,
          db.map (fun w => if w.id == id then v' else w), [.updateUser id])
      | none => (internalErrorResp, db, [.updateUser id])

end Agri

namespace Waf

/-- Modelled from the spec: the engine's final decision for a transaction,
`pass`, `deny` with a status code, `drop`, or `redirect` with a target URL
(spec.md §3 Transaction, §6 Inspection API); the engine itself is external
ModSecurity and has no implementation under src/. -/
inductive Disposition where
  | pass
  | deny (code : Int)
  | drop
  | redirect (url : String)
deriving DecidableEq

/-- Modelled from the spec: a disposition is blocking when it is
`deny`/`drop`/`redirect` (spec.md §3 invariant). -/
def Disposition.isBlocking : Disposition → Bool
  | .pass => false
  | .deny _ => true
  | .drop => true
  | .redirect _ => true

/-- Modelled from the spec: the request snapshot of a transaction
(method, URI, headers, args, body; spec.md §3). -/
structure RequestData where
  method : String
  uri : String
  headers : List (String × String)
  args : List (String × String)
  body : String
deriving DecidableEq

/-- Modelled from the spec: the response snapshot of a transaction
(status, headers, body; spec.md §3). -/
structure ResponseData where
  status : Int
  headers : List (String × String)
  body : String
deriving DecidableEq

/-- Modelled from the spec: one audit entry for a matched rule
(rule id and its `msg` label; spec.md §4.6). -/
structure AuditEntry where
  ruleId : Nat
  message : String
deriving DecidableEq

/-- Modelled from the spec: one request/response transaction — snapshots,
the mutable `TX` variable store, the disposition with the deciding rule id,
the audit record of matched rules, low-severity diagnostics, and the count
of phase 5 logging runs (spec.md §3). -/
structure Tx where
  request : RequestData
  response : ResponseData
  txVars : List (String × Int)
  disposition : Disposition
  decidedBy : Option Nat
  matchedLog : List AuditEntry
  diagnostics : List String
  logged : Nat
deriving DecidableEq

/-- Modelled from the spec: the named, pure normalization transforms of the
transformation pipeline (spec.md §4.2). -/
inductive Transform where
  | lowercase
  | uppercase
  | urlDecode
  | urlDecodeUni
  | htmlEntityDecode
  | base64Decode
  | removeWhitespace
  | compressWhitespace
  | removeNulls
  | identity
deriving DecidableEq

/-- Value of one hexadecimal digit. -/
def hexVal (c : Char) : Option Nat :=
  if c.isDigit then some (c.toNat - 48)
  else if 65 ≤ c.toNat ∧ c.toNat ≤ 70 then some (c.toNat - 55)
  else if 97 ≤ c.toNat ∧ c.toNat ≤ 102 then some (c.toNat - 87)
  else none

/-- Percent-decoding of a URL-encoded character list; `+` decodes to a
space; a `%` not followed by two hexadecimal digits is a decoding failure. -/
def pctDecode : List Char → Option (List Char)
  | [] => some []
  | c :: cs =>
    if c = '%' then
      match cs with
      | a :: b :: rest =>
        match hexVal a, hexVal b with
        | some ha, some hb => (pctDecode rest).map (fun t => Char.ofNat (16 * ha + hb) :: t)
        | _, _ => none
      | _ => none
    else if c = '+' then (pctDecode cs).map (fun t => ' ' :: t)
    else (pctDecode cs).map (fun t => c :: t)

/-- Percent-decoding that additionally understands `%uXXXX` unicode escapes;
a malformed escape is a decoding failure. -/
def pctDecodeUni : List Char → Option (List Char)
  | [] => some []
  | c :: cs =>
    if c = '%' then
      match cs with
      | 'u' :: a :: b :: d :: e :: rest =>
        match hexVal a, hexVal b, hexVal d, hexVal e with
        | some ha, some hb, some hd, some he =>
          (pctDecodeUni rest).map
            (fun t => Char.ofNat (4096 * ha + 256 * hb + 16 * hd + he) :: t)
        | _, _, _, _ => none
      | a :: b :: rest =>
        match hexVal a, hexVal b with
        | some ha, some hb => (pctDecodeUni rest).map (fun t => Char.ofNat (16 * ha + hb) :: t)
        | _, _ => none
      | _ => none
    else if c = '+' then (pctDecodeUni cs).map (fun t => ' ' :: t)
    else (pctDecodeUni cs).map (fun t => c :: t)

/-- HTML entity decoding of the named entities lt/gt/amp/quot; an
unrecognized entity is left in place (this transform has no failure mode). -/
def htmlDecodeAux : List Char → List Char
  | [] => []
  | '&' :: 'l' :: 't' :: ';' :: rest => '<' :: htmlDecodeAux rest
  | '&' :: 'g' :: 't' :: ';' :: rest => '>' :: htmlDecodeAux rest
  | '&' :: 'a' :: 'm' :: 'p' :: ';' :: rest => '&' :: htmlDecodeAux rest
  | '&' :: 'q' :: 'u' :: 'o' :: 't' :: ';' :: rest => '"' :: htmlDecodeAux rest
  | c :: rest => c :: htmlDecodeAux rest

/-- Value of one base64 alphabet character. -/
def b64Val (c : Char) : Option Nat :=
  if 65 ≤ c.toNat ∧ c.toNat ≤ 90 then some (c.toNat - 65)
  else if 97 ≤ c.toNat ∧ c.toNat ≤ 122 then some (c.toNat - 71)
  else if c.isDigit then some (c.toNat + 4)
  else if c = '+' then some 62
  else if c = '/' then some 63
  else none

/-- Base64 decoding of a character list in groups of four with optional
trailing padding; any other shape or alphabet violation is a failure. -/
def b64Decode : List Char → Option (List Char)
  | [] => some []
  | [a, b, '=', '='] =>
    match b64Val a, b64Val b with
    | some va, some vb => some [Char.ofNat (4 * va + vb / 16)]
    | _, _ => none
  | [a, b, c, '='] =>
    match b64Val a, b64Val b, b64Val c with
    | some va, some vb, some vc =>
      some [Char.ofNat (4 * va + vb / 16), Char.ofNat (16 * (vb % 16) + vc / 4)]
    | _, _, _ => none
  | a :: b :: c :: d :: rest =>
    match b64Val a, b64Val b, b64Val c, b64Val d with
    | some va, some vb, some vc, some vd =>
      (b64Decode rest).map (fun t =>
        Char.ofNat (4 * va + vb / 16) :: Char.ofNat (16 * (vb % 16) + vc / 4) ::
        Char.ofNat (64 * (vc % 4) + vd) :: t)
    | _, _, _, _ => none
  | _ => none

/-- Whitespace-run compression with a flag recording whether the previous
character was whitespace. -/
def compressWsAux (prevWs : Bool) : List Char → List Char
  | [] => []
  | c :: cs =>
    if c.isWhitespace then
      if prevWs then compressWsAux true cs else ' ' :: compressWsAux true cs
    else c :: compressWsAux false cs

/-- Whitespace-run compression: every maximal run of whitespace becomes one
space. -/
def compressWs (l : List Char) : List Char := compressWsAux false l

/-- Modelled from the spec: application of one transform; the result pairs
the value with a soft-failure flag, and a decoding failure passes the input
through unchanged with the flag set (spec.md §4.2). -/
def applyTransform (t : Transform) (s : String) : String × Bool :=
  match t with
  | .lowercase => (StrOps.toLowerStr s, false)
  | .uppercase => (StrOps.toUpperStr s, false)
  | .urlDecode =>
    match pctDecode s.data with
    | some cs => (String.mk cs, false)
    | none => (s, true)
  | .urlDecodeUni =>
    match pctDecodeUni s.data with
    | some cs => (String.mk cs, false)
    | none => (s, true)
  | .htmlEntityDecode => (String.mk (htmlDecodeAux s.data), false)
  | .base64Decode =>
    match b64Decode s.data with
    | some cs => (String.mk cs, false)
    | none => (s, true)
  | .removeWhitespace => (String.mk (s.data.filter (fun c => !c.isWhitespace)), false)
  | .compressWhitespace => (String.mk (compressWs s.data), false)
  | .removeNulls => (String.mk (s.data.filter (fun c => c.toNat != 0)), false)
  | .identity => (s, false)

/-- Modelled from the spec: the ordered transformation pipeline of a rule,
applied left-to-right; the failure flag records whether any transform
soft-failed (spec.md §4.2). -/
def runPipeline (ts : List Transform) (s : String) : String × Bool :=
  ts.foldl (fun acc t =>
    let r := applyTransform t acc.1
    (r.1, acc.2 || r.2)) (s, false)

/-- Modelled from the spec: the operator families of the operator evaluator —
string tests, pattern tests with the two heuristic detectors, and numeric
comparisons (spec.md §4.3).  The regular-expression operator is modelled as
literal-substring search (the spec leaves the regex dialect open). -/
inductive Operator where
  | contains (s : String)
  | beginsWith (s : String)
  | endsWith (s : String)
  | streq (s : String)
  | within (s : String)
  | rx (pat : String)
  | detectSQLi
  | detectXSS
  | eqN (n : Int)
  | gtN (n : Int)
  | ltN (n : Int)
  | geN (n : Int)
  | leN (n : Int)
deriving DecidableEq

/-- Lexical signals of the SQL-injection heuristic detector. -/
def sqliSignals : List String :=
  ["union select", "or 1=1", "waitfor delay", "--", "/*", "drop table", "insert into",
   "select ", "sleep(", "benchmark("]

/-- Lexical signals of the XSS heuristic detector. -/
def xssSignals : List String :=
  ["<script", "javascript:", "onerror=", "onload=", "alert(", "<img", "<iframe",
   "document.cookie"]

/-- Modelled from the spec: a heuristic detector scores structural/lexical
signals on the lowercased value (spec.md §4.3 Pattern family). -/
def detectorScore (signals : List String) (v : String) : Nat :=
  (signals.filter (fun sig => StrOps.strContains (StrOps.toLowerStr v) sig)).length

/-- The detectors' fixed match threshold. -/
def detectorThreshold : Nat := 2

/-- Numeric coercion of an operand: an optionally signed decimal integer,
surrounding whitespace ignored; anything else does not coerce. -/
def parseIntOpt (s : String) : Option Int :=
  match StrOps.trimChars s.data with
  | '-' :: rest => (StrOps.parseNatList rest).map (fun n => -(n : Int))
  | l => (StrOps.parseNatList l).map Int.ofNat

/-- Numeric operator application: the operand is coerced to a number and a
non-numeric input is a non-match, never a crash (spec.md §4.3 Numeric). -/
def numericTest (cmp : Int → Int → Bool) (v : String) : Bool :=
  match parseIntOpt v with
  | some m => cmp m 0
  | none => false

/-- Modelled from the spec: the operator evaluator — given the transformed
value, an operator, and the rule's `not` modifier, produce the boolean match
with the modifier folded in as boolean complement, plus the captured value,
which the modifier does not touch (spec.md §4.3). -/
def evalOp (op : Operator) (negated : Bool) (v : String) : Bool × Option String :=
  match op with
  | .contains t =>
    (Bool.xor negated (StrOps.strContains v t), if StrOps.strContains v t then some t else none)
  | .beginsWith t =>
    (Bool.xor negated (t.data.isPrefixOf v.data), if t.data.isPrefixOf v.data then some t else none)
  | .endsWith t =>
    (Bool.xor negated (t.data.isSuffixOf v.data), if t.data.isSuffixOf v.data then some t else none)
  | .streq t =>
    (Bool.xor negated (v == t), if v == t then some v else none)
  | .within t =>
    (Bool.xor negated (StrOps.strContains t v), if StrOps.strContains t v then some v else none)
  | .rx pat =>
    (Bool.xor negated (StrOps.strContains v pat), if StrOps.strContains v pat then some pat else none)
  | .detectSQLi =>
    let b := decide (detectorThreshold ≤ detectorScore sqliSignals v)
    (Bool.xor negated b, if b then some v else none)
  | .detectXSS =>
    let b := decide (detectorThreshold ≤ detectorScore xssSignals v)
    (Bool.xor negated b, if b then some v else none)
  | .eqN n =>
    let b := numericTest (fun m _ => m == n) v
    (Bool.xor negated b, if b then some v else none)
  | .gtN n =>
    let b := numericTest (fun m _ => n < m) v
    (Bool.xor negated b, if b then some v else none)
  | .ltN n =>
    let b := numericTest (fun m _ => m < n) v
    (Bool.xor negated b, if b then some v else none)
  | .geN n =>
    let b := numericTest (fun m _ => n ≤ m) v
    (Bool.xor negated b, if b then some v else none)
  | .leN n =>
    let b := numericTest (fun m _ => m ≤ n) v
    (Bool.xor negated b, if b then some v else none)

/-- Modelled from the spec: a variable selector's key part — the whole
collection, one named member, or the collection minus excluded members
(spec.md §4.1 selector syntax). -/
inductive VarKey where
  | all
  | named (k : String)
  | allExcept (ks : List String)
deriving DecidableEq

/-- Modelled from the spec: the `skip`/`skipAfter` control directives of a
rule (spec.md §4.4). -/
inductive SkipCtl where
  | noSkip
  | skip (n : Nat)
  | skipAfter (target : Nat)
deriving DecidableEq

/-- Modelled from the spec: how `setvar` updates a `TX` variable — plain
assignment or a numeric delta (spec.md §4.5). -/
inductive SetOp where
  | assign
  | inc
  | dec
deriving DecidableEq

/-- Modelled from the spec: the actions of the action executor
(spec.md §4.5). -/
inductive Action where
  | pass
  | deny (code : Int)
  | drop
  | redirect (url : String)
  | allow
  | log
  | nolog
  | auditlog
  | setvar (name : String) (op : SetOp) (val : Int)
  | msg (m : String)
deriving DecidableEq

/-- Modelled from the spec: one loaded rule — numeric id, phase 1-5, a
variable selector, an ordered transformation pipeline, an operator with its
negation flag, an ordered action list, the chain-continuation flag, and an
optional skip directive (spec.md §3 Rule). -/
structure Rule where
  id : Nat
  phase : Nat
  varName : String
  varKey : VarKey
  transforms : List Transform
  op : Operator
  negated : Bool
  actions : List Action
  chain : Bool
  skipCtl : SkipCtl
deriving DecidableEq

/-- All members of a key-value collection with the given key. -/
def lookupAll (kvs : List (String × String)) (k : String) : List (String × String) :=
  kvs.filter (fun kv => kv.1 == k)

/-- Selection from a collection according to the key part of a selector. -/
def selectFrom (kvs : List (String × String)) : VarKey → List (String × String)
  | .all => kvs
  | .named k => lookupAll kvs k
  | .allExcept ks => kvs.filter (fun kv => !(ks.contains kv.1))

/-- Modelled from the spec: the variable resolver — a selector yields zero or
more named scalar candidates from the transaction snapshot, and an unknown
variable name yields no resolution at all (spec.md §4.1). -/
def resolveVariable (tx : Tx) (name : String) (key : VarKey) :
    Option (List (String × String)) :=
  if name == "ARGS" then some (selectFrom tx.request.args key)
  else if name == "REQUEST_HEADERS" then some (selectFrom tx.request.headers key)
  else if name == "RESPONSE_HEADERS" then some (selectFrom tx.response.headers key)
  else if name == "REQUEST_BODY" then some [("REQUEST_BODY", tx.request.body)]
  else if name == "RESPONSE_BODY" then some [("RESPONSE_BODY", tx.response.body)]
  else if name == "REQUEST_URI" then some [("REQUEST_URI", tx.request.uri)]
  else if name == "REQUEST_METHOD" then some [("REQUEST_METHOD", tx.request.method)]
  else if name == "RESPONSE_STATUS" then some [("RESPONSE_STATUS", toString tx.response.status)]
  else if name == "TX" then
    some ((selectFrom (tx.txVars.map (fun kv => (kv.1, toString kv.2))) key))
  else none

/-- One candidate's evaluation under a rule: transform pipeline then
operator; the second component flags a transform soft failure, which makes
the candidate a non-match (spec.md §7 evaluation anomalies). -/
def candMatches (r : Rule) (v : String) : Bool × Bool :=
  let p := runPipeline r.transforms v
  if p.2 then (false, true)
  else ((evalOp r.op r.negated p.1).1, false)

/-- Modelled from the spec: evaluation of one rule against a transaction —
an unknown variable name fails closed to non-match with a diagnostic; each
candidate is evaluated independently and the candidates are OR-ed; a
transform soft failure anywhere makes the rule a non-match with a
diagnostic; anomalies never abort (spec.md §4.1, §4.4, §7). -/
def evalRule (r : Rule) (tx : Tx) : Bool × Tx :=
  match resolveVariable tx r.varName r.varKey with
  | none =>
    (false, { tx with diagnostics :=
      tx.diagnostics ++ ["unknown variable " ++ r.varName ++ " in rule " ++ toString r.id] })
  | some cands =>
    let results := cands.map (fun kv => candMatches r kv.2)
    let anyFail := results.any (fun p => p.2)
    if anyFail then
      (false, { tx with diagnostics :=
        tx.diagnostics ++ ["transform failure in rule " ++ toString r.id] })
    else (results.any (fun p => p.1), tx)

/-- Whether evaluating the rule on the transaction hits a transform soft
failure on some candidate (spec.md §7 evaluation anomalies). -/
def ruleTransformFails (r : Rule) (tx : Tx) : Bool :=
  match resolveVariable tx r.varName r.varKey with
  | some cands => cands.any (fun kv => (runPipeline r.transforms kv.2).2)
  | none => false

/-- Accumulator of the action executor: the transaction so far, whether an
`allow` stops the current phase, whether this match is recorded, and the
attached `msg` label. -/
structure ActionOutcome where
  tx : Tx
  stopPhase : Bool
  logThis : Bool
  message : String

/-- Modelled from the spec: effect of one action — dispositions are
last-write-wins, `allow` forces `pass` and stops the phase, log toggles are
independent, `setvar` updates the `TX` store, `msg` attaches a label
(spec.md §4.5). -/
def applyAction (r : Rule) (acc : ActionOutcome) (a : Action) : ActionOutcome :=
  match a with
  | .pass => acc
  | .deny c => { acc with tx := { acc.tx with disposition := .deny c, decidedBy := some r.id } }
  | .drop => { acc with tx := { acc.tx with disposition := .drop, decidedBy := some r.id } }
  | .redirect u =>
    { acc with tx := { acc.tx with disposition := .redirect u, decidedBy := some r.id } }
  | .allow => { acc with tx := { acc.tx with disposition := .pass }, stopPhase := true }
  | .log => { acc with logThis := true }
  | .nolog => { acc with logThis := false }
  | .auditlog => { acc with logThis := true }
  | .setvar n op val =>
    let old := match acc.tx.txVars.find? (fun kv => kv.1 == n) with
      | some kv => kv.2
      | none => 0
    let newVal := match op with
      | .assign => val
      | .inc => old + val
      | .dec => old - val
    { acc with tx := { acc.tx with txVars :=
        (n, newVal) :: acc.tx.txVars.filter (fun kv => kv.1 != n) } }
  | .msg m => { acc with message := m }

/-- Modelled from the spec: the action executor for one matched rule —
actions run in declared order, and the match is appended to the audit
record unless logging was toggled off (spec.md §4.5, §4.6). -/
def applyMatched (r : Rule) (tx : Tx) : Tx × Bool :=
  let o := r.actions.foldl (applyAction r) ⟨tx, false, true, ""⟩
  let tx' :=
    if o.logThis then
      { o.tx with matchedLog := o.tx.matchedLog ++ [⟨r.id, o.message⟩] }
    else o.tx
  (tx', o.stopPhase)

/-- The links of a chain starting after a chain-flagged rule, and the rules
remaining after the chain: links are collected while the previous link
carries the chain flag (spec.md §4.4 chaining). -/
def splitChain : List Rule → List Rule × List Rule
  | [] => ([], [])
  | r :: rest =>
    if r.chain then
      let p := splitChain rest
      (r :: p.1, p.2)
    else ([r], rest)

/-- The rules after the rule with the given id; everything when the id is
absent. -/
def dropAfter (target : Nat) : List Rule → List Rule
  | [] => []
  | r :: rest => if r.id == target then rest else dropAfter target rest

/-- Evaluation of a whole chain's links on a transaction: all links are
evaluated (threading diagnostics) and their matches AND-ed (spec.md §4.4). -/
def chainFold (links : List Rule) (tx : Tx) : Bool × Tx :=
  links.foldl (fun acc ru =>
    let p := evalRule ru acc.2
    (acc.1 && p.1, p.2)) (true, tx)

/-- The chain's actions: every link's action list executes in rule order
once the whole chain has matched (spec.md §4.4). -/
def chainApplyActions (links : List Rule) (tx : Tx) : Tx × Bool :=
  links.foldl (fun acc r =>
    let p := applyMatched r acc.1
    (p.1, acc.2 || p.2)) (tx, false)

/-- Modelled from the spec: the rule engine's cursor loop over one phase's
rule list — a blocking disposition short-circuits everything that remains; a
chain-flagged rule gathers its links, fires their actions only if every link
matches, and resumes after the last link; an ordinary matching rule runs its
actions and then honours `allow` (stop), `skip:n`, or `skipAfter:id`; a
non-matching rule just advances the cursor (spec.md §3 invariant, §4.4). -/
def evalFrom : List Rule → Tx → Tx
  | [], tx => tx
  | r :: rest, tx =>
    if tx.disposition.isBlocking then tx
    else if r.chain then
      let p := splitChain rest
      let f := chainFold (r :: p.1) tx
      if f.1 then
        let a := chainApplyActions (r :: p.1) f.2
        if a.2 then a.1 else evalFrom p.2 a.1
      else evalFrom p.2 f.2
    else
      let e := evalRule r tx
      if e.1 then
        let a := applyMatched r e.2
        if a.2 then a.1
        else
          match r.skipCtl with
          | .noSkip => evalFrom rest a.1
          | .skip n => evalFrom (rest.drop n) a.1
          | .skipAfter t => evalFrom (dropAfter t rest) a.1
      else evalFrom rest e.2
termination_by l _ => l.length
decreasing_by
  · show (splitChain rest).2.length < rest.length + 1
    have h : ∀ l : List Rule, (splitChain l).2.length ≤ l.length := by
      intro l
      induction l with
      | nil => simp [splitChain]
      | cons x xs ih =>
        simp only [splitChain]
        by_cases hx : x.chain
        · simpa [hx] using Nat.le_succ_of_le ih
        · simp [hx]
    exact Nat.lt_succ_of_le (h rest)
  · show (splitChain rest).2.length < rest.length + 1
    have h : ∀ l : List Rule, (splitChain l).2.length ≤ l.length := by
      intro l
      induction l with
      | nil => simp [splitChain]
      | cons x xs ih =>
        simp only [splitChain]
        by_cases hx : x.chain
        · simpa [hx] using Nat.le_succ_of_le ih
        · simp [hx]
    exact Nat.lt_succ_of_le (h rest)
  · exact Nat.lt_succ_self _
  · show (rest.drop n).length < rest.length + 1
    exact Nat.lt_succ_of_le (by simp [Nat.sub_le])
  · show (dropAfter t rest).length < rest.length + 1
    have h : ∀ (t : Nat) (l : List Rule), (dropAfter t l).length ≤ l.length := by
      intro t l
      induction l with
      | nil => simp [dropAfter]
      | cons x xs ih =>
        simp only [dropAfter]
        by_cases hx : (x.id == t) = true
        · simp [hx]
        · simp only [hx, if_false]
          exact Nat.le_succ_of_le ih
    exact Nat.lt_succ_of_le (h t rest)
  · exact Nat.lt_succ_self _

/-- The rules of one phase, in rule-set order. -/
def rulesForPhase (rs : List Rule) (p : Nat) : List Rule :=
  rs.filter (fun r => r.phase == p)

/-- Modelled from the spec: one phase's evaluation — skipped entirely when
the disposition is already blocking (spec.md §3 invariant, §4.4). -/
def runPhase (rs : List Rule) (p : Nat) (tx : Tx) : Tx :=
  if tx.disposition.isBlocking then tx else evalFrom (rulesForPhase rs p) tx

/-- Modelled from the spec: phase 5 audit logging, which always runs and
emits one structured record per transaction (spec.md §4.6); the model counts
emissions in `logged`. -/
def auditLog (tx : Tx) : Tx := { tx with logged := tx.logged + 1 }

/-- A fresh transaction for an inbound request. -/
def initTx (req : RequestData) : Tx :=
  { request := req, response := ⟨0, [], ""⟩, txVars := [], disposition := .pass,
    decidedBy := none, matchedLog := [], diagnostics := [], logged := 0 }

/-- Modelled from the spec: the whole transaction lifecycle — request phases
1 and 2, response capture, response phases 3 and 4, then phase 5 logging
exactly once (spec.md §2 data flow). -/
def processTransaction (rs : List Rule) (req : RequestData) (resp : ResponseData) : Tx :=
  let tx1 := runPhase rs 1 (initTx req)
  let tx2 := runPhase rs 2 tx1
  let tx2r := { tx2 with response := resp }
  let tx3 := runPhase rs 3 tx2r
  let tx4 := runPhase rs 4 tx3
  auditLog tx4

/-- Modelled from the spec: a rule as authored in the declarative rule
source, before load-time parsing — phase and operator are still text
(spec.md §6 rule source format). -/
structure RawRule where
  id : Nat
  phaseStr : String
  varName : String
  varKey : VarKey
  transformNames : List String
  opName : String
  opArg : String
  negated : Bool
  actions : List Action
  chain : Bool
  skipCtl : SkipCtl
deriving DecidableEq

/-- Modelled from the spec: the configuration-error taxonomy of rule-set
loading (spec.md §7). -/
inductive ConfigError where
  | badSyntax (ruleId : Nat) (detail : String)
  | unknownOperator (ruleId : Nat) (name : String)
  | unknownTransform (ruleId : Nat) (name : String)
  | danglingSkipAfter (ruleId : Nat) (target : Nat)
deriving DecidableEq

/-- Load-time parsing of a phase field: a number from 1 to 5. -/
def parsePhase (rid : Nat) (s : String) : Except ConfigError Nat :=
  match StrOps.parseNatList s.data with
  | some p => if 1 ≤ p ∧ p ≤ 5 then .ok p else .error (.badSyntax rid "phase out of range")
  | none => .error (.badSyntax rid "phase not a number")

/-- Load-time lookup of a transform name. -/
def parseTransform (rid : Nat) (s : String) : Except ConfigError Transform :=
  if s == "lowercase" then .ok .lowercase
  else if s == "uppercase" then .ok .uppercase
  else if s == "urlDecode" then .ok .urlDecode
  else if s == "urlDecodeUni" then .ok .urlDecodeUni
  else if s == "htmlEntityDecode" then .ok .htmlEntityDecode
  else if s == "base64Decode" then .ok .base64Decode
  else if s == "removeWhitespace" then .ok .removeWhitespace
  else if s == "compressWhitespace" then .ok .compressWhitespace
  else if s == "removeNulls" then .ok .removeNulls
  else if s == "none" then .ok .identity
  else .error (.unknownTransform rid s)

/-- Load-time lookup of an operator name and parse of its parameter; an
unknown name is a configuration error, a numeric operator with a
non-numeric parameter is bad syntax (spec.md §7). -/
def parseOperator (rid : Nat) (name arg : String) : Except ConfigError Operator :=
  if name == "contains" then .ok (.contains arg)
  else if name == "beginsWith" then .ok (.beginsWith arg)
  else if name == "endsWith" then .ok (.endsWith arg)
  else if name == "streq" then .ok (.streq arg)
  else if name == "within" then .ok (.within arg)
  else if name == "rx" then .ok (.rx arg)
  else if name == "detectSQLi" then .ok .detectSQLi
  else if name == "detectXSS" then .ok .detectXSS
  else
    match parseIntOpt arg with
    | some n =>
      if name == "eq" then .ok (.eqN n)
      else if name == "gt" then .ok (.gtN n)
      else if name == "lt" then .ok (.ltN n)
      else if name == "ge" then .ok (.geN n)
      else if name == "le" then .ok (.leN n)
      else .error (.unknownOperator rid name)
    | none =>
      if name == "eq" || name == "gt" || name == "lt" || name == "ge" || name == "le" then
        .error (.badSyntax rid "numeric operator parameter not a number")
      else .error (.unknownOperator rid name)

/-- Load-time parsing of a list of transform names. -/
def parseTransforms (rid : Nat) : List String → Except ConfigError (List Transform)
  | [] => .ok []
  | s :: rest =>
    match parseTransform rid s with
    | .error e => .error e
    | .ok t =>
      match parseTransforms rid rest with
      | .error e => .error e
      | .ok ts => .ok (t :: ts)

/-- Modelled from the spec: load-time parsing of one authored rule into its
typed form (spec.md §9 tagged variant parser). -/
def parseRule (raw : RawRule) : Except ConfigError Rule :=
  match parsePhase raw.id raw.phaseStr with
  | .error e => .error e
  | .ok ph =>
    match parseOperator raw.id raw.opName raw.opArg with
    | .error e => .error e
    | .ok op =>
      match parseTransforms raw.id raw.transformNames with
      | .error e => .error e
      | .ok ts =>
        .ok ⟨raw.id, ph, raw.varName, raw.varKey, ts, op, raw.negated,
          raw.actions, raw.chain, raw.skipCtl⟩

/-- Load-time parsing of a whole authored rule set, failing on the first
configuration error. -/
def parseRules : List RawRule → Except ConfigError (List Rule)
  | [] => .ok []
  | raw :: rest =>
    match parseRule raw with
    | .error e => .error e
    | .ok r =>
      match parseRules rest with
      | .error e => .error e
      | .ok rs => .ok (r :: rs)

/-- Modelled from the spec: the load-time check that every `skipAfter`
target names a rule downstream in the same phase (spec.md §4.4, §7). -/
def checkSkipAfter : List Rule → Except ConfigError Unit
  | [] => .ok ()
  | r :: rest =>
    match r.skipCtl with
    | .skipAfter t =>
      if (rest.filter (fun x => x.phase == r.phase)).any (fun x => x.id == t) then
        checkSkipAfter rest
      else .error (.danglingSkipAfter r.id t)
    | _ => checkSkipAfter rest

/-- Modelled from the spec: rule-set loading — parse every rule, then
validate `skipAfter` targets; any configuration error rejects the whole
set (spec.md §7). -/
def loadRuleSet (raws : List RawRule) : Except ConfigError (List Rule) :=
  match parseRules raws with
  | .error e => .error e
  | .ok rules =>
    match checkSkipAfter rules with
    | .error e => .error e
    | .ok _ => .ok rules

/-- Modelled from the spec: the engine's state is the active, immutable
rule set (spec.md §5). -/
structure EngineState where
  activeRules : List Rule
deriving DecidableEq

/-- Modelled from the spec: atomic rule-set reload — on success the new set
replaces the old one wholesale, on any configuration error the previous
valid rule set stays active and the error is surfaced (spec.md §6, §7). -/
def reloadRuleSet (st : EngineState) (raws : List RawRule) :
    EngineState × Option ConfigError :=
  match loadRuleSet raws with
  | .ok rules => (⟨rules⟩, none)
  | .error e => (st, some e)

end Waf

namespace Agri

/-- The checkout validation loop, under the hypothesis that every cart item's
product exists, succeeds with one purchase item per cart item priced at the
product's current price, and with the total summing current price times
requested quantity. -/
theorem validateItems_ok (products : List Product) (items : List CartItem)
    (h : ∀ it ∈ items, (products.find? (fun p => p.id == it.productId)).isSome) :
    validateItems products items =
      .ok (items.map (expectedItem products), itemsTotal products items) := by
  induction items with
  | nil => simp [validateItems, itemsTotal]
  | cons it rest ih =>
    have hhead := h it (by simp)
    obtain ⟨p, hp⟩ : ∃ p, products.find? (fun q => q.id == it.productId) = some p := by
      cases hfind : products.find? (fun q => q.id == it.productId) with
      | none => rw [hfind] at hhead; simp at hhead
      | some p => exact ⟨p, rfl⟩
    have htail : ∀ x ∈ rest, (products.find? (fun q => q.id == x.productId)).isSome := by
      intro x hx
      exact h x (by simp [hx])
    have hpid : p.id = it.productId := by
      have := List.find?_some hp
      simpa using this
    simp [validateItems, hp, ih htail, expectedItem, itemsTotal, priceOf, hpid]

/-- Claim C1 counterexample: the sign-up request with the valid email
`a@b.co` and the five-character password `12345` is answered with status 400
and error code VALIDATION_ERROR, so the sign-up handler does reject input
with a validation error. -/
theorem sign_up_rejects_short_password :
    (signUp [] (fun s => s) "id1" ⟨"a@b.co", "12345", "Bob", "Smith", none⟩).1 =
      ⟨400, .err ⟨"VALIDATION_ERROR", "Invalid input data"⟩⟩ := by decide

/-- Claim C1 amended: the sign-in handler performs no validation step (no
sign-in request is answered with status 400), while the sign-up handler
validates with `signUpSchema` and answers 400 VALIDATION_ERROR exactly when
the email fails zod's email check, the password is shorter than 6
characters, or a name is empty; the validation checks only this shape, so a
sign-up carrying SQL-injection/XSS payloads in its name fields passes. -/
theorem validation_amended (db dbs : List UserRec) (bcryptHash : String → String)
    (newId : String) (b : SignUpBody) (cmp : String → String → Bool) (r : SignInReq) :
    ((signUp db bcryptHash newId b).1.status = 400 ↔ signUpValid b = false) ∧
    (signUpValid b = false →
      (signUp db bcryptHash newId b).1.body = .err ⟨"VALIDATION_ERROR", "Invalid input data"⟩) ∧
    (signIn dbs cmp r).status ≠ 400 ∧
    signUpValid ⟨"attacker@evil.com", "123456", "<script>alert(1)</script>",
      "1 OR 1=1 --", none⟩ = true := by
  refine ⟨?_, ?_, ?_, by decide⟩
  · by_cases hv : signUpValid b = false
    · simp [signUp, hv]
    · simp only [signUp, hv, if_false]
      cases hf : db.find? (fun u => u.email == StrOps.trimStr (StrOps.toLowerStr b.email)) <;>
        simp [hf, hv]
  · intro hv
    simp [signUp, hv]
  · unfold signIn
    cases hf : dbs.find? (fun u => u.email == r.email) with
    | none => simp [invalidCredentialsResp]
    | some u =>
      by_cases hc : cmp r.password u.passwordHash = true <;> simp [hc, invalidCredentialsResp]

/-- Claim C2: a checkout whose items array is non-empty and references only
existing products is answered 201; authenticated requesters get a purchase
whose total is the sum of current price times requested quantity (quantity
taken as-is) and whose items are priced at the product's current price,
appended to the purchases table; unauthenticated requesters get a null
purchase and no record is created. -/
theorem checkout_postcondition (products : List Product) (purchases : List Purchase)
    (user : Option String) (items : List CartItem)
    (hne : items ≠ [])
    (hex : ∀ it ∈ items, (products.find? (fun p => p.id == it.productId)).isSome) :
    (checkout products purchases user items).1.status = 201 ∧
    (∀ uid, user = some uid →
      (checkout products purchases user items).1.body =
        .ok (some ⟨uid, itemsTotal products items, items.map (expectedItem products)⟩)
          true "Order placed successfully!" ∧
      (checkout products purchases user items).2 =
        purchases ++ [⟨uid, itemsTotal products items, items.map (expectedItem products)⟩]) ∧
    (user = none →
      (checkout products purchases user items).1.body =
        .ok none false "Order placed successfully!" ∧
      (checkout products purchases user items).2 = purchases) := by
  have hvi := validateItems_ok products items hex
  have hempty : items.isEmpty = false := by
    cases items with
    | nil => simp at hne
    | cons a l => rfl
  refine ⟨?_, ?_, ?_⟩
  · cases user <;> simp [checkout, hempty, hvi]
  · intro uid huid
    subst huid
    simp [checkout, hempty, hvi]
  · intro huid
    subst huid
    simp [checkout, hempty, hvi]

/-- Claim C2 witness: a concrete one-product, one-item authenticated
checkout satisfying the hypotheses. -/
theorem checkout_postcondition_witness :
    ([(⟨"p1", 3⟩ : CartItem)] ≠ [] ∧
      ∀ it ∈ [(⟨"p1", 3⟩ : CartItem)],
        (([⟨"p1", "Corn", 500⟩] : List Product).find? (fun p => p.id == it.productId)).isSome) ∧
    ((checkout [⟨"p1", "Corn", 500⟩] [] (some "u1") [⟨"p1", 3⟩]).1.status = 201 ∧
    (∀ uid, (some "u1" : Option String) = some uid →
      (checkout [⟨"p1", "Corn", 500⟩] [] (some "u1") [⟨"p1", 3⟩]).1.body =
        .ok (some ⟨uid, itemsTotal [⟨"p1", "Corn", 500⟩] [⟨"p1", 3⟩],
          ([(⟨"p1", 3⟩ : CartItem)]).map (expectedItem [⟨"p1", "Corn", 500⟩])⟩)
          true "Order placed successfully!" ∧
      (checkout [⟨"p1", "Corn", 500⟩] [] (some "u1") [⟨"p1", 3⟩]).2 =
        [] ++ [⟨uid, itemsTotal [⟨"p1", "Corn", 500⟩] [⟨"p1", 3⟩],
          ([(⟨"p1", 3⟩ : CartItem)]).map (expectedItem [⟨"p1", "Corn", 500⟩])⟩]) ∧
    ((some "u1" : Option String) = none →
      (checkout [⟨"p1", "Corn", 500⟩] [] (some "u1") [⟨"p1", 3⟩]).1.body =
        .ok none false "Order placed successfully!" ∧
      (checkout [⟨"p1", "Corn", 500⟩] [] (some "u1") [⟨"p1", 3⟩]).2 = [])) :=
  ⟨⟨by decide, by decide⟩,
    checkout_postcondition [⟨"p1", "Corn", 500⟩] [] (some "u1") [⟨"p1", 3⟩]
      (by decide) (by decide)⟩

/-- Claim C3: the three admin handlers answer 403 FORBIDDEN and issue no
database call whenever the requester is absent or the requester's email is
not exactly admin@agricommerce.com; with that email they never answer 403;
and an admin's DELETE targeting the admin's own id answers 400 with no
database call and no deletion. -/
theorem admin_guard_invariant (user : Option AuthUser) (db : List UserRec) (id : String)
    (firstName lastName : String) (phone : Option String) :
    (isAdminReq user = false →
      adminGetUsers user db = (forbiddenResp, db, []) ∧
      adminDeleteUser user db id = (forbiddenResp, db, []) ∧
      adminUpdateUser user db id firstName lastName phone = (forbiddenResp, db, [])) ∧
    (isAdminReq user = true →
      (adminGetUsers user db).1.status ≠ 403 ∧
      (adminDeleteUser user db id).1.status ≠ 403 ∧
      (adminUpdateUser user db id firstName lastName phone).1.status ≠ 403) ∧
    (∀ u, user = some u → u.email = "admin@agricommerce.com" → id = u.id →
      (adminDeleteUser user db id).1.status = 400 ∧
      (adminDeleteUser user db id).2.1 = db ∧
      (adminDeleteUser user db id).2.2 = []) := by
  refine ⟨?_, ?_, ?_⟩
  · intro h
    cases user with
    | none => simp [adminGetUsers, adminDeleteUser, adminUpdateUser, isAdminReq]
    | some u =>
      simp only [isAdminReq] at h
      refine ⟨by simp [adminGetUsers, isAdminReq, h], ?_, ?_⟩
      · simp [adminDeleteUser, h]
      · simp [adminUpdateUser, h]
  · intro h
    cases user with
    | none => simp [isAdminReq] at h
    | some u =>
      simp only [isAdminReq] at h
      refine ⟨by simp [adminGetUsers, isAdminReq, h, forbiddenResp], ?_, ?_⟩
      · simp only [adminDeleteUser, h, if_false]
        by_cases h1 : (id == u.id) = true
        · simp [h1]
        · by_cases h2 : (db.find? (fun v => v.id == id)).isSome = true <;>
            simp [h1, h2, internalErrorResp]
      · simp only [adminUpdateUser, h, if_false]
        cases hf : db.find? (fun v => v.id == id) <;> simp [hf, internalErrorResp]
  · intro u hu he hid
    subst hu
    have h : (u.email == "admin@agricommerce.com") = true := by simp [he]
    subst hid
    simp [adminDeleteUser, h]

/-- Claim C3 witness: a concrete non-admin requester, a concrete admin
requester, and a concrete self-deletion attempt. -/
theorem admin_guard_invariant_witness :
    (isAdminReq (some ⟨"a1", "admin@agricommerce.com"⟩) = false →
      adminGetUsers (some ⟨"a1", "admin@agricommerce.com"⟩) [] = (forbiddenResp, [], []) ∧
      adminDeleteUser (some ⟨"a1", "admin@agricommerce.com"⟩) [] "a1" = (forbiddenResp, [], []) ∧
      adminUpdateUser (some ⟨"a1", "admin@agricommerce.com"⟩) [] "a1" "F" "L" none =
        (forbiddenResp, [], [])) ∧
    (isAdminReq (some ⟨"a1", "admin@agricommerce.com"⟩) = true →
      (adminGetUsers (some ⟨"a1", "admin@agricommerce.com"⟩) []).1.status ≠ 403 ∧
      (adminDeleteUser (some ⟨"a1", "admin@agricommerce.com"⟩) [] "a1").1.status ≠ 403 ∧
      (adminUpdateUser (some ⟨"a1", "admin@agricommerce.com"⟩) [] "a1" "F" "L" none).1.status ≠ 403) ∧
    (∀ u, (some (⟨"a1", "admin@agricommerce.com"⟩ : AuthUser)) = some u →
      u.email = "admin@agricommerce.com" → "a1" = u.id →
      (adminDeleteUser (some ⟨"a1", "admin@agricommerce.com"⟩) [] "a1").1.status = 400 ∧
      (adminDeleteUser (some ⟨"a1", "admin@agricommerce.com"⟩) [] "a1").2.1 = [] ∧
      (adminDeleteUser (some ⟨"a1", "admin@agricommerce.com"⟩) [] "a1").2.2 = []) :=
  admin_guard_invariant (some ⟨"a1", "admin@agricommerce.com"⟩) [] "a1" "F" "L" none

/-- Claim C4: a sign-in for which no user record exists and a sign-in whose
bcrypt comparison fails produce the identical observable response — status
401 with the shared INVALID_CREDENTIALS body — so the response does not
reveal whether an account with the email exists. -/
theorem sign_in_failure_indistinguishable
    (db1 db2 : List UserRec) (cmp1 cmp2 : String → String → Bool)
    (r1 r2 : SignInReq) (u : UserRec)
    (h1 : db1.find? (fun v => v.email == r1.email) = none)
    (h2 : db2.find? (fun v => v.email == r2.email) = some u)
    (h3 : cmp2 r2.password u.passwordHash = false) :
    signIn db1 cmp1 r1 = signIn db2 cmp2 r2 ∧
    signIn db2 cmp2 r2 =
      ⟨401, .err ⟨"INVALID_CREDENTIALS", "Invalid email or password"⟩⟩ := by
  constructor <;> simp [signIn, h1, h2, h3, invalidCredentialsResp]

/-- Claim C4 witness: a concrete empty database versus a concrete stored
user with a failing comparison. -/
theorem sign_in_failure_indistinguishable_witness :
    (([] : List UserRec).find? (fun v => v.email == "a@b.co") = none ∧
      ([⟨"u1", "c@d.co", "h", "C", "D", none⟩] : List UserRec).find?
        (fun v => v.email == "c@d.co") = some ⟨"u1", "c@d.co", "h", "C", "D", none⟩ ∧
      (fun _ _ => false : String → String → Bool) "pw" "h" = false) ∧
    (signIn [] (fun _ _ => false) ⟨"a@b.co", "x"⟩ =
      signIn [⟨"u1", "c@d.co", "h", "C", "D", none⟩] (fun _ _ => false) ⟨"c@d.co", "pw"⟩ ∧
    signIn [⟨"u1", "c@d.co", "h", "C", "D", none⟩] (fun _ _ => false) ⟨"c@d.co", "pw"⟩ =
      ⟨401, .err ⟨"INVALID_CREDENTIALS", "Invalid email or password"⟩⟩) :=
  ⟨⟨by decide, by decide, by decide⟩,
    sign_in_failure_indistinguishable [] [⟨"u1", "c@d.co", "h", "C", "D", none⟩]
      (fun _ _ => false) (fun _ _ => false) ⟨"a@b.co", "x"⟩ ⟨"c@d.co", "pw"⟩
      ⟨"u1", "c@d.co", "h", "C", "D", none⟩ (by decide) (by decide) (by decide)⟩

end Agri


namespace Waf

/-- Unfolding of the cursor loop on the empty rule list. -/
theorem evalFrom_nil (tx : Tx) : evalFrom [] tx = tx := by
  rw [evalFrom]

/-- Unfolding of the cursor loop when the disposition already blocks:
nothing further is evaluated. -/
theorem evalFrom_blocking (r : Rule) (rest : List Rule) (tx : Tx)
    (h : tx.disposition.isBlocking = true) :
    evalFrom (r :: rest) tx = tx := by
  rw [evalFrom]
  simp [h]

/-- Unfolding of the cursor loop at a chain-flagged rule. -/
theorem evalFrom_chain (r : Rule) (rest : List Rule) (tx : Tx)
    (hb : tx.disposition.isBlocking = false) (hc : r.chain = true) :
    evalFrom (r :: rest) tx =
      (if (chainFold (r :: (splitChain rest).1) tx).1 then
        (if (chainApplyActions (r :: (splitChain rest).1)
              (chainFold (r :: (splitChain rest).1) tx).2).2 then
          (chainApplyActions (r :: (splitChain rest).1)
            (chainFold (r :: (splitChain rest).1) tx).2).1
        else
          evalFrom (splitChain rest).2
            (chainApplyActions (r :: (splitChain rest).1)
              (chainFold (r :: (splitChain rest).1) tx).2).1)
      else evalFrom (splitChain rest).2 (chainFold (r :: (splitChain rest).1) tx).2) := by
  rw [evalFrom]
  simp [hb, hc]

/-- Unfolding of the cursor loop at an ordinary (non-chain) rule. -/
theorem evalFrom_nonchain (r : Rule) (rest : List Rule) (tx : Tx)
    (hb : tx.disposition.isBlocking = false) (hc : r.chain = false) :
    evalFrom (r :: rest) tx =
      (if (evalRule r tx).1 then
        (if (applyMatched r (evalRule r tx).2).2 then (applyMatched r (evalRule r tx).2).1
        else
          match r.skipCtl with
          | .noSkip => evalFrom rest (applyMatched r (evalRule r tx).2).1
          | .skip n => evalFrom (rest.drop n) (applyMatched r (evalRule r tx).2).1
          | .skipAfter t => evalFrom (dropAfter t rest) (applyMatched r (evalRule r tx).2).1)
      else evalFrom rest (evalRule r tx).2) := by
  rw [evalFrom]
  simp [hb, hc]

/-- The remainder after gathering a chain is no longer than the input. -/
theorem splitChain_len (l : List Rule) : (splitChain l).2.length ≤ l.length := by
  induction l with
  | nil => simp [splitChain]
  | cons x xs ih =>
    simp only [splitChain]
    by_cases hx : x.chain
    · simpa [hx] using Nat.le_succ_of_le ih
    · simp [hx]

/-- Dropping up to and including a target id never lengthens the list. -/
theorem dropAfter_len (t : Nat) (l : List Rule) : (dropAfter t l).length ≤ l.length := by
  induction l with
  | nil => simp [dropAfter]
  | cons x xs ih =>
    simp only [dropAfter]
    by_cases hx : (x.id == t) = true
    · simp [hx]
    · simp only [hx, if_false]
      exact Nat.le_succ_of_le ih

/-- Every single action leaves the phase-5 logging counter untouched. -/
theorem applyAction_logged (r : Rule) (acc : ActionOutcome) (a : Action) :
    (applyAction r acc a).tx.logged = acc.tx.logged := by
  cases a <;> simp [applyAction]

/-- An action list leaves the phase-5 logging counter untouched. -/
theorem applyActions_logged (r : Rule) (acts : List Action) (acc : ActionOutcome) :
    (acts.foldl (applyAction r) acc).tx.logged = acc.tx.logged := by
  induction acts generalizing acc with
  | nil => rfl
  | cons a rest ih => rw [List.foldl_cons, ih, applyAction_logged]

/-- The action executor of a matched rule leaves the phase-5 logging
counter untouched. -/
theorem applyMatched_logged (r : Rule) (tx : Tx) :
    (applyMatched r tx).1.logged = tx.logged := by
  unfold applyMatched
  by_cases h : (r.actions.foldl (applyAction r) ⟨tx, false, true, ""⟩).logThis <;>
    simp [h, applyActions_logged]

/-- Rule evaluation leaves the phase-5 logging counter untouched. -/
theorem evalRule_logged (r : Rule) (tx : Tx) :
    (evalRule r tx).2.logged = tx.logged := by
  unfold evalRule
  cases h : resolveVariable tx r.varName r.varKey with
  | none => simp
  | some cands =>
    by_cases h2 : (cands.map (fun kv => candMatches r kv.2)).any (fun p => p.2) <;> simp [h2]

/-- Chain evaluation leaves the phase-5 logging counter untouched. -/
theorem chainFold_logged (links : List Rule) (b : Bool) (tx : Tx) :
    ((links.foldl (fun acc ru =>
      let p := evalRule ru acc.2
      (acc.1 && p.1, p.2)) (b, tx)).2).logged = tx.logged := by
  induction links generalizing b tx with
  | nil => rfl
  | cons r rest ih =>
    rw [List.foldl_cons]
    simp only []
    rw [ih, evalRule_logged]

/-- Chain action execution leaves the phase-5 logging counter untouched. -/
theorem chainApplyActions_logged (links : List Rule) (tx : Tx) (b : Bool) :
    ((links.foldl (fun acc r =>
      let p := applyMatched r acc.1
      (p.1, acc.2 || p.2)) (tx, b)).1).logged = tx.logged := by
  induction links generalizing b tx with
  | nil => rfl
  | cons r rest ih =>
    rw [List.foldl_cons]
    simp only []
    rw [ih, applyMatched_logged]

/-- The whole cursor loop leaves the phase-5 logging counter untouched,
stated with an explicit length bound for the induction. -/
theorem evalFrom_logged_aux :
    ∀ (n : Nat) (l : List Rule), l.length ≤ n → ∀ tx : Tx,
      (evalFrom l tx).logged = tx.logged := by
  intro n
  induction n with
  | zero =>
    intro l hl tx
    have hnil : l = [] := List.eq_nil_of_length_eq_zero (Nat.le_zero.mp hl)
    subst hnil
    rw [evalFrom_nil]
  | succ n ih =>
    intro l hl tx
    cases l with
    | nil => rw [evalFrom_nil]
    | cons r rest =>
      have hrest : rest.length ≤ n := by
        simp only [List.length_cons] at hl
        omega
      by_cases hb : tx.disposition.isBlocking = true
      · rw [evalFrom_blocking r rest tx hb]
      · have hb' : tx.disposition.isBlocking = false := by simpa using hb
        by_cases hc : r.chain = true
        · rw [evalFrom_chain r rest tx hb' hc]
          have hsplit : (splitChain rest).2.length ≤ n :=
            le_trans (splitChain_len rest) hrest
          have hcf : (chainFold (r :: (splitChain rest).1) tx).2.logged = tx.logged :=
            chainFold_logged (r :: (splitChain rest).1) true tx
          have hca : (chainApplyActions (r :: (splitChain rest).1)
              (chainFold (r :: (splitChain rest).1) tx).2).1.logged = tx.logged := by
            rw [chainApplyActions]
            rw [chainApplyActions_logged (r :: (splitChain rest).1)
              (chainFold (r :: (splitChain rest).1) tx).2 false]
            exact hcf
          by_cases hf : (chainFold (r :: (splitChain rest).1) tx).1 = true
          · simp only [hf, if_true]
            by_cases ha : (chainApplyActions (r :: (splitChain rest).1)
                (chainFold (r :: (splitChain rest).1) tx).2).2 = true
            · simp only [ha, if_true]
              exact hca
            · have ha' := eq_false_of_ne_true ha
              simp only [ha']
              rw [if_neg Bool.false_ne_true]
              rw [ih _ hsplit]
              exact hca
          · have hf' := eq_false_of_ne_true hf
            simp only [hf']
            rw [if_neg Bool.false_ne_true]
            rw [ih _ hsplit]
            exact hcf
        · have hc' : r.chain = false := eq_false_of_ne_true hc
          rw [evalFrom_nonchain r rest tx hb' hc']
          have her : (evalRule r tx).2.logged = tx.logged := evalRule_logged r tx
          have ham : (applyMatched r (evalRule r tx).2).1.logged = tx.logged := by
            rw [applyMatched_logged]
            exact her
          by_cases hm : (evalRule r tx).1 = true
          · simp only [hm, if_true]
            by_cases hs : (applyMatched r (evalRule r tx).2).2 = true
            · simp only [hs, if_true]
              exact ham
            · have hs' := eq_false_of_ne_true hs
              simp only [hs']
              rw [if_neg Bool.false_ne_true]
              cases hsk : r.skipCtl with
              | noSkip =>
                rw [ih _ hrest]
                exact ham
              | skip k =>
                rw [ih _ (le_trans (by simp [Nat.sub_le]) hrest)]
                exact ham
              | skipAfter t =>
                rw [ih _ (le_trans (dropAfter_len t rest) hrest)]
                exact ham
          · have hm' := eq_false_of_ne_true hm
            simp only [hm']
            rw [if_neg Bool.false_ne_true]
            rw [ih _ hrest]
            exact her

/-- The cursor loop leaves the phase-5 logging counter untouched. -/
theorem evalFrom_logged (l : List Rule) (tx : Tx) :
    (evalFrom l tx).logged = tx.logged :=
  evalFrom_logged_aux l.length l (le_refl _) tx

/-- Phase evaluation leaves the phase-5 logging counter untouched. -/
theorem runPhase_logged (rs : List Rule) (p : Nat) (tx : Tx) :
    (runPhase rs p tx).logged = tx.logged := by
  unfold runPhase
  by_cases h : tx.disposition.isBlocking = true
  · simp [h]
  · simp only [eq_false_of_ne_true h]
    rw [if_neg Bool.false_ne_true]
    exact evalFrom_logged _ _

end Waf

namespace Waf

/-- Claim C5: once a transaction's disposition is set to deny, drop, or
redirect, the cursor loop and any remaining phase evaluation leave the
transaction — hence its final disposition — unchanged, and phase 5 logging
still executes exactly once per processed transaction. -/
theorem disposition_short_circuit_and_logging (l rs : List Rule) (p : Nat) (tx : Tx)
    (req : RequestData) (resp : ResponseData)
    (h : tx.disposition.isBlocking = true) :
    evalFrom l tx = tx ∧ runPhase rs p tx = tx ∧
    (processTransaction rs req resp).logged = 1 := by
  refine ⟨?_, ?_, ?_⟩
  · cases l with
    | nil => exact evalFrom_nil tx
    | cons r rest => exact evalFrom_blocking r rest tx h
  · unfold runPhase
    simp [h]
  · unfold processTransaction
    simp only [auditLog, runPhase_logged]
    rfl

/-- Claim C5 witness: a transaction already denied is left untouched by
further evaluation, and a concrete transaction is logged exactly once. -/
theorem disposition_short_circuit_and_logging_witness :
    ((⟨⟨"GET", "/", [], [], ""⟩, ⟨0, [], ""⟩, [], .deny 403, some 10, [], [], 0⟩ :
        Tx).disposition.isBlocking = true) ∧
    (evalFrom [⟨11, 1, "ARGS", .all, [], .contains "x", false, [.redirect "/y"], false,
        .noSkip⟩]
      ⟨⟨"GET", "/", [], [], ""⟩, ⟨0, [], ""⟩, [], .deny 403, some 10, [], [], 0⟩ =
      ⟨⟨"GET", "/", [], [], ""⟩, ⟨0, [], ""⟩, [], .deny 403, some 10, [], [], 0⟩ ∧
    runPhase [] 1 ⟨⟨"GET", "/", [], [], ""⟩, ⟨0, [], ""⟩, [], .deny 403, some 10, [], [], 0⟩ =
      ⟨⟨"GET", "/", [], [], ""⟩, ⟨0, [], ""⟩, [], .deny 403, some 10, [], [], 0⟩ ∧
    (processTransaction [] ⟨"GET", "/", [], [], ""⟩ ⟨200, [], ""⟩).logged = 1) :=
  ⟨by decide,
    disposition_short_circuit_and_logging
      [⟨11, 1, "ARGS", .all, [], .contains "x", false, [.redirect "/y"], false, .noSkip⟩]
      [] 1 ⟨⟨"GET", "/", [], [], ""⟩, ⟨0, [], ""⟩, [], .deny 403, some 10, [], [], 0⟩
      ⟨"GET", "/", [], [], ""⟩ ⟨200, [], ""⟩ (by decide)⟩

/-- Gathering a chain that ends at a non-chain rule. -/
theorem splitChain_cons_false (r : Rule) (rest : List Rule) (h : r.chain = false) :
    splitChain (r :: rest) = ([r], rest) := by
  simp [splitChain, h]

/-- Claim C6: for consecutive rules R1 carrying the chain flag and R2 ending
the chain, on an anomaly-free transaction the chain's actions fire exactly
when R1 and R2 both individually match; otherwise — in particular when R1
matches but R2 does not — no action of either rule fires (the transaction
passed on is unchanged) and evaluation resumes at the rule after R2. -/
theorem chain_semantics (r1 r2 : Rule) (rest : List Rule) (tx : Tx)
    (hc : r1.chain = true) (hc2 : r2.chain = false)
    (hb : tx.disposition.isBlocking = false)
    (e1 : (evalRule r1 tx).2 = tx) (e2 : (evalRule r2 tx).2 = tx) :
    (((evalRule r1 tx).1 && (evalRule r2 tx).1) = false →
      evalFrom (r1 :: r2 :: rest) tx = evalFrom rest tx) ∧
    (((evalRule r1 tx).1 && (evalRule r2 tx).1) = true →
      evalFrom (r1 :: r2 :: rest) tx =
        (if (chainApplyActions [r1, r2] tx).2 = true then (chainApplyActions [r1, r2] tx).1
         else evalFrom rest (chainApplyActions [r1, r2] tx).1)) := by
  have hsc : splitChain (r2 :: rest) = ([r2], rest) := splitChain_cons_false r2 rest hc2
  have hcf : chainFold [r1, r2] tx = ((evalRule r1 tx).1 && (evalRule r2 tx).1, tx) := by
    simp [chainFold, e1, e2]
  constructor
  · intro hm
    rw [evalFrom_chain r1 (r2 :: rest) tx hb hc, hsc]
    simp only [hcf, hm]
    rw [if_neg Bool.false_ne_true]
  · intro hm
    rw [evalFrom_chain r1 (r2 :: rest) tx hb hc, hsc]
    simp only [hcf, hm]
    simp

/-- Claim C6 witness: a concrete two-rule chain on a concrete transaction
in which the first link matches and the second does not. -/
theorem chain_semantics_witness :
    ((⟨10, 1, "REQUEST_METHOD", .all, [], .streq "GET", false, [.deny 403], true,
        .noSkip⟩ : Rule).chain = true ∧
      (⟨11, 1, "ARGS", .named "q", [], .contains "zzz", false, [], false,
        .noSkip⟩ : Rule).chain = false ∧
      ((evalRule ⟨10, 1, "REQUEST_METHOD", .all, [], .streq "GET", false, [.deny 403], true,
          .noSkip⟩
        ⟨⟨"GET", "/", [], [("q", "abc")], ""⟩, ⟨0, [], ""⟩, [], .pass, none, [], [], 0⟩).1 &&
       (evalRule ⟨11, 1, "ARGS", .named "q", [], .contains "zzz", false, [], false,
          .noSkip⟩
        ⟨⟨"GET", "/", [], [("q", "abc")], ""⟩, ⟨0, [], ""⟩, [], .pass, none, [], [], 0⟩).1) =
        false) ∧
    evalFrom
      [⟨10, 1, "REQUEST_METHOD", .all, [], .streq "GET", false, [.deny 403], true, .noSkip⟩,
       ⟨11, 1, "ARGS", .named "q", [], .contains "zzz", false, [], false, .noSkip⟩]
      ⟨⟨"GET", "/", [], [("q", "abc")], ""⟩, ⟨0, [], ""⟩, [], .pass, none, [], [], 0⟩ =
      evalFrom []
        ⟨⟨"GET", "/", [], [("q", "abc")], ""⟩, ⟨0, [], ""⟩, [], .pass, none, [], [], 0⟩ :=
  ⟨⟨by decide, by decide, by decide⟩,
    (chain_semantics
      ⟨10, 1, "REQUEST_METHOD", .all, [], .streq "GET", false, [.deny 403], true, .noSkip⟩
      ⟨11, 1, "ARGS", .named "q", [], .contains "zzz", false, [], false, .noSkip⟩
      []
      ⟨⟨"GET", "/", [], [("q", "abc")], ""⟩, ⟨0, [], ""⟩, [], .pass, none, [], [], 0⟩
      (by decide) (by decide) (by decide) (by decide) (by decide)).1 (by decide)⟩

/-- Claim C7: for every operator and every input value, enabling the `not`
modifier returns exactly the boolean complement of the unmodified operator,
and the captured value is unchanged by the modifier. -/
theorem operator_negation_complement (op : Operator) (v : String) :
    (evalOp op true v).1 = !((evalOp op false v).1) ∧
    (evalOp op true v).2 = (evalOp op false v).2 := by
  cases op <;> simp [evalOp, Bool.xor]

/-- Claim C8: a pipeline of just the identity transform returns the input
unchanged, and every transform is total — whenever it reports a soft
failure (a decoding failure on malformed input) it passes the input through
unchanged rather than throwing. -/
theorem transform_identity_and_totality (s : String) (t : Transform) :
    runPipeline [Transform.identity] s = (s, false) ∧
    ((applyTransform t s).2 = true → (applyTransform t s).1 = s) := by
  constructor
  · rfl
  · cases t with
    | urlDecode =>
      cases h : pctDecode s.data with
      | none => simp [applyTransform, h]
      | some cs => simp [applyTransform, h]
    | urlDecodeUni =>
      cases h : pctDecodeUni s.data with
      | none => simp [applyTransform, h]
      | some cs => simp [applyTransform, h]
    | base64Decode =>
      cases h : b64Decode s.data with
      | none => simp [applyTransform, h]
      | some cs => simp [applyTransform, h]
    | lowercase => simp [applyTransform]
    | uppercase => simp [applyTransform]
    | htmlEntityDecode => simp [applyTransform]
    | removeWhitespace => simp [applyTransform]
    | compressWhitespace => simp [applyTransform]
    | removeNulls => simp [applyTransform]
    | identity => simp [applyTransform]

/-- Claim C8 witness: the malformed URL-encoding `%zz` soft-fails and passes
through unchanged, and the identity pipeline returns it unchanged. -/
theorem transform_identity_and_totality_witness :
    (applyTransform Transform.urlDecode "%zz").2 = true ∧
    runPipeline [Transform.identity] "%zz" = ("%zz", false) ∧
    (applyTransform Transform.urlDecode "%zz").1 = "%zz" :=
  ⟨by decide, (transform_identity_and_totality "%zz" Transform.urlDecode).1,
    (transform_identity_and_totality "%zz" Transform.urlDecode).2 (by decide)⟩

/-- The failure flag of a candidate's evaluation is exactly the pipeline's
soft-failure flag. -/
theorem candMatches_snd (r : Rule) (v : String) :
    (candMatches r v).2 = (runPipeline r.transforms v).2 := by
  unfold candMatches
  by_cases h : (runPipeline r.transforms v).2 = true <;> simp [h]

/-- Claim C9: a rule whose variable selector names an unknown variable, or
whose transform pipeline soft-fails on some candidate, evaluates to
non-match, records a diagnostic, and the cursor loop continues with the
remaining rules — the anomaly never aborts the transaction.  (Operators in
the model are total by construction: numeric coercion failure is already a
non-match per spec §4.3, so no operator application can throw.) -/
theorem anomaly_fail_closed (r : Rule) (rest : List Rule) (tx : Tx)
    (hb : tx.disposition.isBlocking = false) (hch : r.chain = false)
    (h : resolveVariable tx r.varName r.varKey = none ∨ ruleTransformFails r tx = true) :
    (evalRule r tx).1 = false ∧
    tx.diagnostics.length < (evalRule r tx).2.diagnostics.length ∧
    evalFrom (r :: rest) tx = evalFrom rest (evalRule r tx).2 := by
  have hkey : (evalRule r tx).1 = false ∧
      tx.diagnostics.length < (evalRule r tx).2.diagnostics.length := by
    cases h with
    | inl hres => simp [evalRule, hres]
    | inr htf =>
      unfold ruleTransformFails at htf
      cases hres : resolveVariable tx r.varName r.varKey with
      | none => rw [hres] at htf; simp at htf
      | some cands =>
        rw [hres] at htf
        simp only [] at htf
        have hgen : ∀ L : List (String × String),
            (L.map (fun kv => candMatches r kv.2)).any (fun p => p.2) =
              L.any (fun kv => (runPipeline r.transforms kv.2).2) := by
          intro L
          induction L with
          | nil => rfl
          | cons kv rest2 ih => simp [List.any_cons, ih, candMatches_snd]
        have hany : (cands.map (fun kv => candMatches r kv.2)).any (fun p => p.2) = true := by
          rw [hgen]
          simpa using htf
        simp [evalRule, hres, hany]
  refine ⟨hkey.1, hkey.2, ?_⟩
  rw [evalFrom_nonchain r rest tx hb hch]
  simp only [hkey.1]
  rw [if_neg Bool.false_ne_true]

/-- Claim C9 witness: a concrete rule naming the unknown variable `NOPE`
evaluates to non-match with a diagnostic and the loop continues. -/
theorem anomaly_fail_closed_witness :
    resolveVariable
        ⟨⟨"GET", "/", [], [], ""⟩, ⟨0, [], ""⟩, [], .pass, none, [], [], 0⟩ "NOPE" .all =
      none ∧
    ((evalRule ⟨2000, 1, "NOPE", .all, [], .contains "x", false, [.deny 403], false, .noSkip⟩
        ⟨⟨"GET", "/", [], [], ""⟩, ⟨0, [], ""⟩, [], .pass, none, [], [], 0⟩).1 = false ∧
    (⟨⟨"GET", "/", [], [], ""⟩, ⟨0, [], ""⟩, [], .pass, none, [], [], 0⟩ :
        Tx).diagnostics.length <
      (evalRule ⟨2000, 1, "NOPE", .all, [], .contains "x", false, [.deny 403], false, .noSkip⟩
        ⟨⟨"GET", "/", [], [], ""⟩, ⟨0, [], ""⟩, [], .pass, none, [], [], 0⟩).2.diagnostics.length ∧
    evalFrom [⟨2000, 1, "NOPE", .all, [], .contains "x", false, [.deny 403], false, .noSkip⟩]
        ⟨⟨"GET", "/", [], [], ""⟩, ⟨0, [], ""⟩, [], .pass, none, [], [], 0⟩ =
      evalFrom []
        (evalRule ⟨2000, 1, "NOPE", .all, [], .contains "x", false, [.deny 403], false, .noSkip⟩
          ⟨⟨"GET", "/", [], [], ""⟩, ⟨0, [], ""⟩, [], .pass, none, [], [], 0⟩).2) :=
  ⟨by decide,
    anomaly_fail_closed
      ⟨2000, 1, "NOPE", .all, [], .contains "x", false, [.deny 403], false, .noSkip⟩ []
      ⟨⟨"GET", "/", [], [], ""⟩, ⟨0, [], ""⟩, [], .pass, none, [], [], 0⟩
      (by decide) (by decide) (Or.inl (by decide))⟩

/-- Claim C10: a rule-set load containing a configuration error — bad rule
syntax, an unknown operator name, or a dangling `skipAfter` target — makes
the whole reload fail atomically, leaving the previously active rule set
unchanged and surfacing the error; conversely every successfully loaded rule
set passes the `skipAfter` check, so a dangling target can only be detected
at load time, never at request time. -/
theorem load_atomicity (st : EngineState) (raws raws2 : List RawRule) (e : ConfigError)
    (h : loadRuleSet raws = .error e) :
    reloadRuleSet st raws = (st, some e) ∧
    (∀ rules, loadRuleSet raws2 = .ok rules → checkSkipAfter rules = .ok ()) := by
  constructor
  · unfold reloadRuleSet
    rw [h]
  · intro rules h2
    unfold loadRuleSet at h2
    cases hp : parseRules raws2 with
    | error e2 => simp [hp] at h2
    | ok rs =>
      cases hc : checkSkipAfter rs with
      | error e2 => simp [hp, hc] at h2
      | ok u =>
        simp [hp, hc] at h2
        cases u
        rw [← h2]
        exact hc

/-- Claim C10 witness: an authored rule with the unknown operator name
`frobnicate` rejects the reload and the previous rule set stays active. -/
theorem load_atomicity_witness :
    loadRuleSet [⟨2, "1", "ARGS", .all, [], "frobnicate", "", false, [], false, .noSkip⟩] =
      .error (.unknownOperator 2 "frobnicate") ∧
    (reloadRuleSet ⟨[]⟩ [⟨2, "1", "ARGS", .all, [], "frobnicate", "", false, [], false,
        .noSkip⟩] =
      (⟨[]⟩, some (.unknownOperator 2 "frobnicate")) ∧
    (∀ rules, loadRuleSet ([] : List RawRule) = .ok rules → checkSkipAfter rules = .ok ())) :=
  ⟨rfl,
    load_atomicity ⟨[]⟩
      [⟨2, "1", "ARGS", .all, [], "frobnicate", "", false, [], false, .noSkip⟩] []
      (.unknownOperator 2 "frobnicate") rfl⟩

end Waf
